import Mathlib

/-!
# Verification of the verse-card-generator repository

A shallow embedding, in Lean 4, of the parts of the `vcg` package
(`bible.py`, `model.py`, `render.py`, `app.py`) that the specification
claims speak about, together with theorems settling those claims.

Conventions of the embedding:
* Python dictionaries become association lists (`List (k × v)`), with
  `dictSet` modelling `d[k] = v` (replace in place, else append — the
  insertion-order semantics of Python dicts) and `List.lookup` modelling
  `d[k]` / `k in d`.
* Python exceptions become `Except PyExn`; `abort(n)` from Flask is the
  `PyExn.abort n` value.
* Machine integers in this code are small non-negative counts (chapter and
  verse numbers), embedded as `Nat`.
* Filesystem state relevant to the cache discipline is a list of the paths
  that currently exist (`fs : List String`); `os.unlink` removes a path.
-/

/-- Python exceptions / HTTP aborts that the embedded code can raise. -/
inductive PyExn where
  | keyError
  | nameError
  | indexError
  | stopIter
  | valueError (msg : String)
  | synErr (msg : String)
  | abort (code : Nat)
  | osError
  | noFuel
  deriving DecidableEq, Repr

/-- `d[k] = v` on a Python dict kept as an association list: replace the
value at the first occurrence of `k`, else append `(k, v)` at the end
(Python dicts keep insertion order, which `bible.py` relies on for the
file-encounter order of books). -/
def dictSet {α β : Type} [BEq α] (k : α) (v : β) : List (α × β) → List (α × β)
  | [] => [(k, v)]
  | (k1, v1) :: rest => if k == k1 then (k, v) :: rest else (k1, v1) :: dictSet k v rest

/-- Python `range(a, b)`: the list `[a, a+1, ..., b-1]` (empty when `b ≤ a`). -/
def pyRange (a b : Nat) : List Nat := List.range' a (b - a)

/-! ## `bible.py`: data model -/

/-- `VerseRef = namedtuple("VerseRef", ("book", "chapter", "verse"))`. -/
structure VerseRef where
  book : String
  chapter : Nat
  verse : Nat
  deriving DecidableEq, BEq, Repr

/-- `Verse = namedtuple("Verse", ("book", "chapter", "verse", "text"))` in
`bible.py` — one parsed line of the verse database.  (Named `VerseLine`
here because `model.py` also defines a `Verse`.) -/
structure VerseLine where
  book : String
  chapter : Nat
  verse : Nat
  text : String
  deriving DecidableEq, Repr

/-- The state built by `BibleBooks.__init__`: `self._verses` and
`self._books` (book ↦ chapter ↦ last verse, in file-encounter order). -/
structure BibleBooks where
  verses : List (VerseRef × String)
  books : List (String × List (Nat × Nat))
  deriving DecidableEq, Repr

/-- The loop state of `BibleBooks.__init__`: the two dicts under
construction plus `cur_book`, `max_verses`, `cur_chapter`, `last_verse`.
`last_verse` starts as Python `None` but is only ever read (in the
finalization branches) after at least one line has set it, so it is kept
as a plain `Nat` initialised to `0`. -/
structure LoadState where
  verses : List (VerseRef × String)
  books : List (String × List (Nat × Nat))
  cur_book : Option String
  max_verses : List (Nat × Nat)
  cur_chapter : Option Nat
  last_verse : Nat

/-- Python truthiness of `cur_chapter` (`None` and `0` are falsy). -/
def optNatTruthy : Option Nat → Bool
  | none => false
  | some n => n != 0

/-- Python truthiness of `cur_book` (`None` and `""` are falsy). -/
def optStrTruthy : Option String → Bool
  | none => false
  | some s => s != ""

/-- One iteration of the `for line in stream` loop of
`BibleBooks.__init__` on an already-parsed line. -/
def loadStep (st : LoadState) (l : VerseLine) : LoadState :=
  let verses := dictSet (VerseRef.mk l.book l.chapter l.verse) l.text st.verses
  -- if chapter != cur_chapter: (if cur_chapter: max_verses[cur_chapter] = last_verse); cur_chapter = chapter
  let chapterChanged := some l.chapter != st.cur_chapter
  let max_verses :=
    if chapterChanged && optNatTruthy st.cur_chapter then
      dictSet (st.cur_chapter.getD 0) st.last_verse st.max_verses
    else st.max_verses
  let cur_chapter := if chapterChanged then some l.chapter else st.cur_chapter
  -- if book != cur_book: (if cur_book: self._books[cur_book] = max_verses; max_verses = {}); cur_book = book
  let bookChanged := some l.book != st.cur_book
  let books :=
    if bookChanged && optStrTruthy st.cur_book then
      dictSet (st.cur_book.getD "") max_verses st.books
    else st.books
  let max_verses := if bookChanged && optStrTruthy st.cur_book then [] else max_verses
  let cur_book := if bookChanged then some l.book else st.cur_book
  ⟨verses, books, cur_book, max_verses, cur_chapter, l.verse⟩

/-- `BibleBooks.__init__` over the stream of (already parsed) verse lines.
After the loop: `max_verses[chapter] = last_verse; self._books[book] =
max_verses` using the loop variables of the final line; on an empty
stream those names are unbound (`NameError`). -/
def initBB (lines : List VerseLine) : Except PyExn BibleBooks :=
  match lines.getLast? with
  | none => .error .nameError
  | some lst =>
    let st := lines.foldl loadStep ⟨[], [], none, [], none, 0⟩
    let max_verses := dictSet lst.chapter st.last_verse st.max_verses
    let books := dictSet lst.book max_verses st.books
    .ok ⟨st.verses, books⟩

/-- `BibleBooks.last_verse`: `self._books[book][chapter]` (KeyError when
either lookup misses). -/
def last_verse (bb : BibleBooks) (book : String) (chapter : Nat) : Except PyExn Nat :=
  match bb.books.lookup book with
  | none => .error .keyError
  | some chaps =>
    match chaps.lookup chapter with
    | none => .error .keyError
    | some lv => .ok lv

/-- `BibleBooks.is_valid_ref`. -/
def is_valid_ref (bb : BibleBooks) (v : VerseRef) : Bool :=
  match bb.books.lookup v.book with
  | none => false
  | some chaps =>
    match chaps.lookup v.chapter with
    | none => false
    | some lv => !(v.verse < 1 || v.verse > lv)

/-- `BibleBooks.get_next_ref`.  `book_seq[book_i + 1]` raises `IndexError`
past the end of the book list; the final guard raises `StopIteration`. -/
def get_next_ref (bb : BibleBooks) (v : VerseRef) : Except PyExn VerseRef :=
  if !is_valid_ref bb v then .ok v
  else
    let inc_verse := VerseRef.mk v.book v.chapter (v.verse + 1)
    if is_valid_ref bb inc_verse then .ok inc_verse
    else
      let inc_chapter := VerseRef.mk v.book (v.chapter + 1) 1
      if is_valid_ref bb inc_chapter then .ok inc_chapter
      else
        let book_seq := bb.books.map Prod.fst
        let book_i := book_seq.indexOf v.book
        match book_seq.get? (book_i + 1) with
        | none => .error .indexError
        | some nb =>
          let inc_book := VerseRef.mk nb 1 1
          if is_valid_ref bb inc_book then .ok inc_book
          else .error .stopIter

/-- `BibleBooks.refs_are_contiguous`: `self.get_next_ref(v1) == v2`
(exceptions from `get_next_ref` propagate). -/
def refs_are_contiguous (bb : BibleBooks) (v1 v2 : VerseRef) : Except PyExn Bool :=
  (get_next_ref bb v1).map (fun r => decide (r = v2))

/-! ## `bible.py`: `ParseStream` and `parse_ref`

The cursor (`self._s`, `self._pos`) is embedded as the remaining suffix of
the input, a `List Char`.  The three compiled regexes act at the cursor:
`RX_WS = \s*`, `RX_NAME = ([A-Za-z][A-Za-z0-9]*)\s+`,
`RX_NUM = ([0-9]+)\s*`. -/

/-- `[A-Za-z0-9]`. -/
def isAlnumC (c : Char) : Bool := c.isAlpha || c.isDigit

/-- `int` of a digit run. -/
def digitsToNat (ds : List Char) : Nat :=
  ds.foldl (fun a c => 10 * a + (c.toNat - 48)) 0

/-- `ParseStream.read_name`: match `RX_NAME` at the cursor (a letter, then
letters/digits, then at least one whitespace char, all consumed) or raise
`SyntaxError("expected name")`.  The character class `[A-Za-z0-9]*` is
greedy but cannot backtrack into `\s+` (no character is both), so the
match is the maximal alphanumeric run. -/
def readName (s : List Char) : Except PyExn (String × List Char) :=
  match s with
  | [] => .error (.synErr "expected name")
  | c :: rest =>
    if c.isAlpha then
      let nm : String := ⟨c :: rest.takeWhile isAlnumC⟩
      match rest.dropWhile isAlnumC with
      | [] => .error (.synErr "expected name")
      | d :: r2 =>
        if d.isWhitespace then .ok (nm, r2.dropWhile Char.isWhitespace)
        else .error (.synErr "expected name")
    else .error (.synErr "expected name")

/-- `ParseStream.read_num`: match `RX_NUM` at the cursor (a nonempty digit
run, then any whitespace, all consumed) or raise
`SyntaxError("expected number")`. -/
def readNum (s : List Char) : Except PyExn (Nat × List Char) :=
  match s.takeWhile Char.isDigit with
  | [] => .error (.synErr "expected number")
  | ds => .ok (digitsToNat ds, (s.dropWhile Char.isDigit).dropWhile Char.isWhitespace)

/-- `ParseStream.require`: the literal must be next; consume it and any
following whitespace. -/
def require (lit : String) (s : List Char) : Except PyExn (List Char) :=
  if s.take lit.length = lit.data then
    .ok ((s.drop lit.length).dropWhile Char.isWhitespace)
  else .error (.synErr ("expected " ++ lit))

/-- `ParseStream.accept`: consume the literal and following whitespace if
present, else leave the cursor alone. -/
def accept (lit : String) (s : List Char) : Option (List Char) :=
  if s.take lit.length = lit.data then
    some ((s.drop lit.length).dropWhile Char.isWhitespace)
  else none

/-- The `for cnum in range(chap, end_span)` loop of the cross-chapter
range clause in `parse_ref`: for each intermediate chapter, yield from
`verse + 1` through its last verse, then set `verse = 0`; returns the
yielded refs and the final value of `verse`. -/
def crossChapterLoop (bb : BibleBooks) (book : String) (verse : Nat) :
    List Nat → Except PyExn (List VerseRef × Nat)
  | [] => .ok ([], verse)
  | c :: cs => do
    let lv ← last_verse bb book c
    let ys := (pyRange (verse + 1) (lv + 1)).map (fun v => VerseRef.mk book c v)
    let (rest, vfin) ← crossChapterLoop bb book 0 cs
    .ok (ys ++ rest, vfin)

/-- The inner `while not ps.eos()` loop of `parse_ref`: the `,` / `-` /
`;` clauses after the first verse of a group.  `chap` and `verse` are the
loop's mutable variables (`verse` is left unchanged by a same-chapter
range, and ends `0` after a cross-chapter range that visited at least one
intermediate chapter).  Returns the yielded refs and the cursor at which
the loop stopped (after the `;`, or at end of input). -/
def parseClauses (bb : BibleBooks) (book : String) (chap verse : Nat)
    (s : List Char) : Nat → Except PyExn (List VerseRef × List Char)
  | 0 => .error .noFuel
  | fuel + 1 =>
    if s.isEmpty then .ok ([], s)
    else
      match accept "," s with
      | some s1 => do
        let (v, s2) ← readNum s1
        let (rest, sfin) ← parseClauses bb book chap v s2 fuel
        .ok (VerseRef.mk book chap v :: rest, sfin)
      | none =>
        match accept "-" s with
        | some s1 => do
          let (end_span, s2) ← readNum s1
          match accept ":" s2 with
          | some s3 => do
            let (ys1, vmid) ← crossChapterLoop bb book verse (pyRange chap end_span)
            let (end_verse, s4) ← readNum s3
            let ys2 := (pyRange (vmid + 1) (end_verse + 1)).map
              (fun v => VerseRef.mk book end_span v)
            let (rest, sfin) ← parseClauses bb book end_span vmid s4 fuel
            .ok (ys1 ++ ys2 ++ rest, sfin)
          | none => do
            let end_verse := end_span
            let ys := (pyRange (verse + 1) (end_verse + 1)).map
              (fun v => VerseRef.mk book chap v)
            let (rest, sfin) ← parseClauses bb book chap verse s2 fuel
            .ok (ys ++ rest, sfin)
        | none =>
          match accept ";" s with
          | some s1 => .ok ([], s1)
          | none => .error (.synErr ("unexpected " ++ String.mk (s.take 1)))

/-- The outer `while not ps.eos()` loop of `parse_ref`.  `book?` is the
`book` variable (initially `None`; only re-read via `read_name` while
falsy, so a later `;`-group never names a new book).  A group that ends
right after its chapter number yields the whole chapter, `1` through
`last_verse(book, chap)`, and stops the loop (`break`). -/
def parseGroups (bb : BibleBooks) (book? : Option String) (s : List Char) :
    Nat → Except PyExn (List VerseRef)
  | 0 => .error .noFuel
  | fuel + 1 =>
    if s.isEmpty then .ok []
    else do
      let (book, s1) ←
        if optStrTruthy book? then Except.ok (book?.getD "", s) else readName s
      let (chap, s2) ← readNum s1
      if s2.isEmpty then do
        let lv ← last_verse bb book chap
        .ok ((pyRange 1 (lv + 1)).map (fun i => VerseRef.mk book chap i))
      else do
        let s3 ← require ":" s2
        let (verse, s4) ← readNum s3
        let (clauseRefs, s5) ← parseClauses bb book chap verse s4 fuel
        let tail ← parseGroups bb (some book) s5 fuel
        .ok (VerseRef.mk book chap verse :: (clauseRefs ++ tail))

/-- `parse_ref(ref, bb)`, consumed to a list as the application does
(`[... for v in parse_ref(...)]`): a `SyntaxError` or lookup error
anywhere discards the partial yields and raises. -/
def parse_ref (bb : BibleBooks) (ref : String) : Except PyExn (List VerseRef) :=
  parseGroups bb none (ref.data.dropWhile Char.isWhitespace) (ref.data.length + 1)

/-- A small fixture database, used for concrete checks below. -/
def jhnBB : BibleBooks :=
  { verses := []
    books := [("Jhn", [(2, 25), (3, 36), (4, 54)])] }


/-! ## `model.py`: `Verse` and `Card` -/

/-- Values that can sit in an option map or arrive as a raw form value:
Python strings and booleans. -/
inductive PyVal where
  | str (s : String)
  | bool (b : Bool)
  deriving DecidableEq, BEq, Repr

/-- `model.Verse`: `num` and `text`. -/
structure Verse where
  num : Nat
  text : String
  deriving DecidableEq, BEq, Repr

/-- `model.Card`.  `Card.__init__` generates `self.uuid` with
`uuid.uuid4()`; the embedding takes the fresh identifier as an argument
where a card is constructed. -/
structure Card where
  title : String
  verses : List Verse
  uuid : String
  options : List (String × PyVal)
  deriving DecidableEq, BEq, Repr

/-- `Card(title, verses)` with no keyword options (as the app calls it):
`options` is a copy of the empty keyword dict. -/
def Card.new (title : String) (verses : List Verse) (freshUuid : String) : Card :=
  ⟨title, verses, freshUuid, []⟩

/-- `Card.get_verse`: first verse with the given number, else
`KeyError`. -/
def Card.get_verse (c : Card) (num : Nat) : Except PyExn Verse :=
  match c.verses.find? (fun v => v.num == num) with
  | some v => .ok v
  | none => .error .keyError

/-! ## `render.py`: the option framework -/

/-- The two value kinds used by the option tables (`kind=str` is the
dataclass default, `kind=bool` is explicit). -/
inductive Kind where
  | str
  | bool
  deriving DecidableEq, Repr

/-- `isinstance(value, self.kind)`. -/
def isinst (k : Kind) : PyVal → Bool
  | .str _ => k == .str
  | .bool _ => k == .bool

/-- `self.kind(value)` — Python coercion of a value to `str` or `bool`:
`bool(s)` is truthiness of the string (nonempty), `str(b)` prints
`True` / `False`. -/
def kindCoerce (k : Kind) : PyVal → PyVal
  | .str s => match k with
    | .str => .str s
    | .bool => .bool (s != "")
  | .bool b => match k with
    | .str => .str (if b then "True" else "False")
    | .bool => .bool b

/-- `self.kind()` — the kind's zero value, used by the option-update
endpoints for an absent form field: `bool()` is `False`, `str()` is
`""`. -/
def kindZero : Kind → PyVal
  | .str => .str ""
  | .bool => .bool false

/-- Printing a `PyVal` into the `ValueError` message f-string. -/
def pyValStr : PyVal → String
  | .str s => s
  | .bool b => if b then "True" else "False"

/-- `render.Option` (named `OptionDef` here: `Option` is taken in Lean).
The `flatten` field of `GlobalOption` is not needed by any claim and is
omitted; everything `validate` reads is present. -/
structure OptionDef where
  info : String
  kind : Kind := .str
  ctrl : String := "text"
  choices : Option (List PyVal) := none
  default : PyVal
  deriving DecidableEq, Repr

/-- `Option.validate`: coerce to the declared kind unless already an
instance, then reject values outside a declared choice list. -/
def OptionDef.validate (o : OptionDef) (value : PyVal) : Except PyExn PyVal :=
  let value := if isinst o.kind value then value else kindCoerce o.kind value
  match o.choices with
  | some cs =>
    if cs.contains value then .ok value
    else .error (.valueError (pyValStr value ++ " is not in the list of allowed values"))
  | none => .ok value

/-- `LATEX_FONT_SIZES` (each size keyword with a leading backslash). -/
def LATEX_FONT_SIZES : List PyVal :=
  ["\\tiny", "\\scriptsize", "\\footnotesize", "\\small", "\\normalsize",
   "\\large", "\\Large", "\\LARGE", "\\huge", "\\Huge"].map PyVal.str

/-- `FLASHCARD_PAPER_SIZES`. -/
def FLASHCARD_PAPER_SIZES : List PyVal :=
  [PyVal.str "avery5371", PyVal.str "avery5388"]

/-- `DOC_OPTION_MAP["paper_size"]`. -/
def paper_size_opt : OptionDef :=
  { info := "Label paper format supported by LaTeX flashcards document class."
    choices := some FLASHCARD_PAPER_SIZES
    ctrl := "select"
    default := .str "avery5388" }

/-- `DOC_OPTION_MAP["frame"]`. -/
def frame_opt : OptionDef :=
  { info := "Draw a border/frame around the card contents."
    kind := .bool, ctrl := "checkbox", default := .bool false }

/-- `DOC_OPTION_MAP["grid"]`. -/
def grid_opt : OptionDef :=
  { info := "Draw lines on the sheet where the card perforation is."
    kind := .bool, ctrl := "checkbox", default := .bool true }

/-- `DOC_OPTION_MAP` (insertion order preserved). -/
def DOC_OPTION_MAP : List (String × OptionDef) :=
  [("paper_size", paper_size_opt), ("frame", frame_opt), ("grid", grid_opt)]

/-- `CARD_OPTION_MAP["paragraphs"]`. -/
def paragraphs_opt : OptionDef :=
  { info := "Separate each verse into its own paragraph."
    kind := .bool, ctrl := "checkbox", default := .bool true }

/-- `CARD_OPTION_MAP["columns"]`. -/
def columns_opt : OptionDef :=
  { info := "Typeset verse texts into two columns."
    kind := .bool, ctrl := "checkbox", default := .bool false }

/-- `CARD_OPTION_MAP["ragged_right"]`. -/
def ragged_right_opt : OptionDef :=
  { info := "Left-align verse texts (ragged-right) instead of centering."
    kind := .bool, ctrl := "checkbox", default := .bool true }

/-- `CARD_OPTION_MAP["title_size"]`. -/
def title_size_opt : OptionDef :=
  { info := "LaTeX font size for reference/title."
    choices := some LATEX_FONT_SIZES, ctrl := "select", default := .str "\\Huge" }

/-- `CARD_OPTION_MAP["text_size"]`. -/
def text_size_opt : OptionDef :=
  { info := "LaTeX font size for verse text."
    choices := some LATEX_FONT_SIZES, ctrl := "select", default := .str "\\normalsize" }

/-- `CARD_OPTION_MAP["num_size"]`. -/
def num_size_opt : OptionDef :=
  { info := "LaTeX font size for verse numbers."
    choices := some LATEX_FONT_SIZES, ctrl := "select", default := .str "\\small" }

/-- `CARD_OPTION_MAP` (insertion order preserved). -/
def CARD_OPTION_MAP : List (String × OptionDef) :=
  [("paragraphs", paragraphs_opt), ("columns", columns_opt),
   ("ragged_right", ragged_right_opt), ("title_size", title_size_opt),
   ("text_size", text_size_opt), ("num_size", num_size_opt)]

/-- `optimized_card`: for every card option, validate the stored value
(defaulting a missing key to the declared default) and store it back. -/
def optimized_card (card : Card) : Except PyExn Card :=
  CARD_OPTION_MAP.foldlM
    (fun c kv => do
      let raw := (c.options.lookup kv.fst).getD kv.snd.default
      let v ← kv.snd.validate raw
      Except.ok { c with options := dictSet kv.fst v c.options })
    card

/-! ## `app.py`: session state, cache discipline, handlers

`request.form` fields that a handler reads with `request.form[...]` are
passed as `String` arguments; fields read with `request.form.get(...)`
are passed as `Option String` or as an association list.  The session is
a record of the keys the application uses (`Option` marks an absent
key).  The freshly generated `uuid.uuid4()` of a new card and the fresh
temp-file name produced by the renderers are passed in as arguments. -/

/-- `BOOK_NAMES` from `bible.py`. -/
def BOOK_NAMES : List (String × String) :=
  [("Gen", "Genesis"), ("Exo", "Exodus"), ("Lev", "Leviticus"),
   ("Num", "Numbers"), ("Deu", "Deuteronomy"), ("Jos", "Joshua"),
   ("Jdg", "Judges"), ("Rut", "Ruth"), ("Sa1", "I Samuel"),
   ("Sa2", "II Samuel"), ("Kg1", "I Kings"), ("Kg2", "II Kings"),
   ("Ch1", "I Chronicles"), ("Ch2", "II Chronicles"), ("Ezr", "Ezra"),
   ("Neh", "Nehemiah"), ("Est", "Esther"), ("Job", "Job"),
   ("Psa", "Psalm"), ("Pro", "Proverbs"), ("Ecc", "Ecclesiastes"),
   ("Sol", "Song of Solomon"), ("Isa", "Isaiah"), ("Jer", "Jeremiah"),
   ("Lam", "Lamentations"), ("Eze", "Ezekiel"), ("Dan", "Daniel"),
   ("Hos", "Hosea"), ("Joe", "Joel"), ("Amo", "Amos"),
   ("Oba", "Obadiah"), ("Jon", "Jonah"), ("Mic", "Micah"),
   ("Nah", "Nahum"), ("Hab", "Habbakkuh"), ("Zep", "Zephaniah"),
   ("Hag", "Haggai"), ("Zac", "Zachariah"), ("Mal", "Malachi"),
   ("Mat", "Matthew"), ("Mar", "Mark"), ("Luk", "Luke"),
   ("Joh", "John"), ("Act", "Acts"), ("Rom", "Romans"),
   ("Co1", "I Corinthians"), ("Co2", "II Corinthians"), ("Gal", "Galatians"),
   ("Eph", "Ephesians"), ("Phi", "Phillippians"), ("Col", "Colossians"),
   ("Th1", "I Thessalonians"), ("Th2", "II Thessalonians"), ("Ti1", "I Timothy"),
   ("Ti2", "II Timothy"), ("Tit", "Titus"), ("Plm", "Philemon"),
   ("Heb", "Hebrews"), ("Jam", "James"), ("Pe1", "I Peter"),
   ("Pe2", "II Peter"), ("Jo1", "I John"), ("Jo2", "II John"),
   ("Jo3", "III John"), ("Jde", "Jude"), ("Rev", "Revelation")]

/-- `BibleBooks.pretty_name` with the default `short=False`:
`BOOK_NAMES[abbrev]`. -/
def pretty_name (abbr : String) : Except PyExn String :=
  match BOOK_NAMES.lookup abbr with
  | some n => .ok n
  | none => .error .keyError

/-- `BibleBooks.__getitem__`: `self._verses[ref]`. -/
def bbGetItem (bb : BibleBooks) (r : VerseRef) : Except PyExn String :=
  match bb.verses.lookup r with
  | some t => .ok t
  | none => .error .keyError

/-- The comprehension `[Verse(v.verse, bb[v]) for v in parse_ref(parse_title, bb)]`
shared by `index` and `add_card`.  (The generator is consumed into a
list, so an exception from either the parse or a text lookup discards
the partial result and propagates.) -/
def build_verses (bb : BibleBooks) (parse_title : String) : Except PyExn (List Verse) := do
  let refs ← parse_ref bb parse_title
  refs.mapM (fun r => do
    let t ← bbGetItem bb r
    Except.ok (Verse.mk r.verse t))

/-- The session record: one field per session key used by `app.py`
(`none` = key absent).  `preview_mime_type` can be *present with value
`None`* (the PDF path stores `None`), hence the nested `Option`. -/
structure Session where
  cards : Option (List Card)
  book : Option String
  chapvers : Option String
  options : Option (List (String × PyVal))
  preview_cache_file : Option String
  preview_mime_type : Option (Option String)
  deriving DecidableEq, Repr

/-- Session plus the filesystem paths that currently exist (the cache
artifacts live on disk). -/
structure AppState where
  sess : Session
  fs : List String
  deriving DecidableEq, Repr

/-- `os.unlink`: the path no longer exists afterwards. -/
def fsUnlink (fs : List String) (p : String) : List String :=
  fs.filter (fun q => q != p)

/-- `del session[key]`: `KeyError` when the key is absent. -/
def delKey {α : Type} : Option α → Except PyExn Unit
  | none => .error .keyError
  | some _ => .ok ()

/-- `get_cache_file`: read both slots; a set path whose file no longer
exists is treated (without clearing the session) as no cache. -/
def get_cache_file (st : AppState) : Option String × Option (Option String) :=
  match st.sess.preview_cache_file with
  | some p =>
    if st.fs.contains p then (some p, st.sess.preview_mime_type) else (none, none)
  | none => (none, st.sess.preview_mime_type)

/-- `set_cache_file`: unlink the previously cached path if one is
recorded (`os.unlink` raises when that file is already gone), then store
the new path and MIME type. -/
def set_cache_file (st : AppState) (filename : String) (mime : Option String) :
    Except PyExn AppState := do
  let fs ←
    match st.sess.preview_cache_file with
    | some old =>
      if st.fs.contains old then Except.ok (fsUnlink st.fs old)
      else Except.error PyExn.osError
    | none => Except.ok st.fs
  .ok { sess := { st.sess with preview_cache_file := some filename,
                               preview_mime_type := some mime },
        fs := fs }

/-- `bust_cache_file`: when a cached path is recorded, delete its file if
it still exists and delete both session keys.  (`del
session["preview_mime_type"]` raises `KeyError` if that key is absent;
the two keys are only ever set together by `set_cache_file`.) -/
def bust_cache_file (st : AppState) : Except PyExn AppState :=
  match st.sess.preview_cache_file with
  | none => .ok st
  | some cf =>
    let fs := if st.fs.contains cf then fsUnlink st.fs cf else st.fs
    match st.sess.preview_mime_type with
    | none => .error .keyError
    | some _ =>
      .ok { sess := { st.sess with preview_cache_file := none,
                                   preview_mime_type := none },
            fs := fs }

/-- The name `title` read by the flash f-string
`f"Error parsing reference '{title}': {err}"` in both `index` and
`add_card`.  Neither function ever assigns `title` (they bind
`view_title` and `parse_title`), so the name is unbound at the `flash`
call: formatting the message raises `NameError`. -/
def titleLocal : Option String := none

/-- `index` (`GET`/`POST /`): the `Add` and `Reset` form actions; any
other (or absent) action just renders the page.  Returns the new state
and the list of flash messages emitted. -/
def index (bb : BibleBooks) (st : AppState) (action : Option String)
    (book chapvers : String) (freshUuid : String) :
    Except PyExn (AppState × List String) :=
  let cards := st.sess.cards.getD []
  match action with
  | some "Add" => do
    let st := { st with sess := { st.sess with book := some book,
                                               chapvers := some chapvers } }
    let view_title ← (pretty_name book).map (fun pn => pn ++ " " ++ chapvers)
    let parse_title := book ++ " " ++ chapvers
    match build_verses bb parse_title with
    | .error _err =>
      match titleLocal with
      | none => .error .nameError
      | some t => .ok (st, ["Error parsing reference " ++ t])
    | .ok verses =>
      let cards := cards ++ [Card.new view_title verses freshUuid]
      let st := { st with sess := { st.sess with cards := some cards,
                                                 chapvers := some "" } }
      let st ← bust_cache_file st
      .ok (st, [])
  | some "Reset" => do
    let _ ← delKey st.sess.cards
    let _ ← delKey st.sess.book
    let _ ← delKey st.sess.chapvers
    let st := { st with sess := { st.sess with cards := none, book := none,
                                               chapvers := none } }
    let st ← bust_cache_file st
    .ok (st, [])
  | _ => .ok (st, [])

/-- The fragment returned by `add_card`. -/
inductive AddCardResp where
  | errorFragment
  | cardFragment (c : Card)
  deriving DecidableEq, Repr

/-- `add_card` (`POST /ajax/card/new`). -/
def add_card (bb : BibleBooks) (st : AppState) (book chapvers : String)
    (freshUuid : String) : Except PyExn (AppState × AddCardResp) := do
  let cards := st.sess.cards.getD []
  let st := { st with sess := { st.sess with book := some book,
                                             chapvers := some chapvers } }
  let view_title ← (pretty_name book).map (fun pn => pn ++ " " ++ chapvers)
  let parse_title := book ++ " " ++ chapvers
  match build_verses bb parse_title with
  | .error _err =>
    match titleLocal with
    | none => .error .nameError
    | some _t => .ok (st, .errorFragment)
  | .ok verses =>
    let new_card := Card.new view_title verses freshUuid
    let cards := cards ++ [new_card]
    let st := { st with sess := { st.sess with cards := some cards,
                                               chapvers := some "" } }
    let st ← bust_cache_file st
    .ok (st, .cardFragment new_card)

/-- `get_session_card`: first card with the given uuid, else
`abort(404)`. -/
def get_session_card (sess : Session) (uuid : String) : Except PyExn Card :=
  match (sess.cards.getD []).find? (fun c => c.uuid == uuid) with
  | some c => .ok c
  | none => .error (.abort 404)

/-- Replace the first element satisfying `p` (Python mutates the object
`get_session_card` / `get_verse` returned, which the session list holds a
reference to). -/
def updateFirst {α : Type} (p : α → Bool) (f : α → α) : List α → List α
  | [] => []
  | x :: xs => if p x then f x :: xs else x :: updateFirst p f xs

/-- `delete_card` (`DELETE /ajax/card/<uuid>`): `list.remove` deletes the
first element equal (`==`, structural) to the found card. -/
def delete_card (st : AppState) (uuid : String) : Except PyExn AppState := do
  let c ← get_session_card st.sess uuid
  let cards ← match st.sess.cards with
    | some cs => Except.ok cs
    | none => Except.error PyExn.keyError
  let st := { st with sess := { st.sess with cards := some (cards.erase c) } }
  bust_cache_file st

/-- The loop `for okey, odef in MAP.items(): target[okey] =
odef.validate(request.form.get(okey, odef.kind()))` shared by the two
option-update endpoints. -/
def apply_option_map (omap : List (String × OptionDef))
    (form : List (String × String)) (target : List (String × PyVal)) :
    Except PyExn (List (String × PyVal)) :=
  omap.foldlM
    (fun acc kv => do
      let raw := match form.lookup kv.fst with
        | some s => PyVal.str s
        | none => kindZero kv.snd.kind
      let v ← kv.snd.validate raw
      Except.ok (dictSet kv.fst v acc))
    target

/-- `set_card_options` (`PUT /ajax/card/<uuid>/options`). -/
def set_card_options (st : AppState) (uuid : String)
    (form : List (String × String)) : Except PyExn AppState := do
  let c ← get_session_card st.sess uuid
  let opts ← apply_option_map CARD_OPTION_MAP form c.options
  let cards := updateFirst (fun c2 => c2.uuid == uuid)
    (fun c2 => { c2 with options := opts }) (st.sess.cards.getD [])
  let st := { st with sess := { st.sess with cards := some cards } }
  bust_cache_file st

/-- `set_doc_options` (`PUT /ajax/options`). -/
def set_doc_options (st : AppState) (form : List (String × String)) :
    Except PyExn AppState := do
  let doc_options := st.sess.options.getD []
  let doc_options ← apply_option_map DOC_OPTION_MAP form doc_options
  let st := { st with sess := { st.sess with options := some doc_options } }
  bust_cache_file st

/-- What `preview_output_src` sends back on success. -/
inductive PreviewResp where
  | placeholder
  | sendFile (path : String) (mime : Option String)
  deriving DecidableEq, Repr

/-- `preview_output_src` (`GET /ajax/preview-src/<fmt>`).  `freshFile` is
the temp file a renderer would produce; rendering appends it to the
filesystem.  `abort(400)` is the `match fmt` fall-through. -/
def preview_output_src (st : AppState) (fmt : String) (freshFile : String) :
    Except PyExn (AppState × PreviewResp) :=
  if (st.sess.cards.getD []).length == 0 then .ok (st, .placeholder)
  else
    match get_cache_file st with
    | (some cf, mt) => .ok (st, .sendFile cf (mt.getD none))
    | (none, _) =>
      if fmt == "PDF" then do
        let st := { st with fs := st.fs ++ [freshFile] }
        let st ← set_cache_file st freshFile none
        .ok (st, .sendFile freshFile none)
      else if fmt == "LaTeX" then do
        let st := { st with fs := st.fs ++ [freshFile] }
        let st ← set_cache_file st freshFile (some "text/x-tex")
        .ok (st, .sendFile freshFile (some "text/x-tex"))
      else .error (.abort 400)

/-- Python `a in b` on strings: substring containment. -/
def pyInStr (a b : String) : Bool := decide (List.IsInfix a.data b.data)

/-- The `PUT` branch of `edit_card_verse_text`
(`PUT /ajax/card/<uuid>/verse/<num>/edit`): the guard is
`if not new_text in v.text: abort(403)` — the submitted text must occur
inside the stored text.  On success the verse object is mutated in
place, the cache busted, and the updated verse rendered back. -/
def edit_card_verse_text_put (st : AppState) (uuid : String) (num : Nat)
    (new_text : String) : Except PyExn (AppState × Verse) := do
  let c ← get_session_card st.sess uuid
  let v ← c.get_verse num
  if !(pyInStr new_text v.text) then .error (.abort 403)
  else
    let editVerses := fun (vs : List Verse) => updateFirst (fun v2 => v2.num == num)
      (fun v2 => { v2 with text := new_text }) vs
    let cards := updateFirst (fun c2 => c2.uuid == uuid)
      (fun c2 => { c2 with verses := editVerses c2.verses })
      (st.sess.cards.getD [])
    let st := { st with sess := { st.sess with cards := some cards } }
    let st ← bust_cache_file st
    .ok (st, { v with text := new_text })

/-- The `PUT` branch of `edit_card_title`
(`PUT /ajax/card/<uuid>/title/edit`): unconditional title replacement. -/
def edit_card_title_put (st : AppState) (uuid : String) (newtitle : String) :
    Except PyExn AppState := do
  let _c ← get_session_card st.sess uuid
  let cards := updateFirst (fun c2 => c2.uuid == uuid)
    (fun c2 => { c2 with title := newtitle }) (st.sess.cards.getD [])
  let st := { st with sess := { st.sess with cards := some cards } }
  bust_cache_file st

/-! ## Fixtures and claim-side predicates -/

deriving instance DecidableEq for Except

/-- An app state with a fresh, empty session. -/
def emptyAppState : AppState :=
  { sess := { cards := none, book := none, chapvers := none, options := none,
              preview_cache_file := none, preview_mime_type := none }
    fs := [] }

/-- A card holding John 3:16, as the Add action would build it. -/
def c1Card : Card :=
  { title := "John 3:16"
    verses := [⟨16, "For God so loved..."⟩]
    uuid := "u-c1"
    options := [] }

/-- Session containing just `c1Card`, no cache. -/
def c1State : AppState :=
  { sess := { cards := some [c1Card], book := none, chapvers := none,
              options := none, preview_cache_file := none, preview_mime_type := none }
    fs := [] }

/-- A fixture database containing John 3 (as `index`/`add_card` see it:
the book code `Joh` is in `BOOK_NAMES`). -/
def johBB : BibleBooks :=
  { verses := [(⟨"Joh", 3, 16⟩, "For God so loved the world...")]
    books := [("Joh", [(3, 36)])] }

/-- The database stream of the spec's chapter-boundary scenario: a
single-chapter book (`Oba`) immediately followed by a book whose first
chapter has the same chapter number (`Jon`, chapter 1). -/
def c2Lines : List VerseLine :=
  [⟨"Oba", 1, 1, "obadiah text"⟩, ⟨"Jon", 1, 1, "jonah text"⟩]

/-- The invariant claimed by the spec for `BibleBooks`: every `VerseRef`
recorded in `verses` has a chapter entry in `books` whose last-verse
value is at least the ref's verse number.  (Stated from the spec, to be
checked against what `initBB` builds.) -/
def booksCoverVerses (bb : BibleBooks) : Bool :=
  bb.verses.all (fun rt =>
    match bb.books.lookup rt.fst.book with
    | none => false
    | some chaps =>
      match chaps.lookup rt.fst.chapter with
      | none => false
      | some lv => decide (rt.fst.verse ≤ lv))

/-- The fully defaulted option map `optimized_card` produces for a card
created with no options. -/
def c9ResultCard : Card :=
  { title := "t", verses := [], uuid := "u-c9"
    options := [("paragraphs", .bool true), ("columns", .bool false),
                ("ragged_right", .bool true), ("title_size", .str "\\Huge"),
                ("text_size", .str "\\normalsize"), ("num_size", .str "\\small")] }

/-- A four-line database stream: book `A` (chapters 1-2) then book `B`
(chapter 1), with a chapter-number change at the book boundary so the
loader builds it correctly. -/
def c5Lines : List VerseLine :=
  [⟨"A", 1, 1, "a11"⟩, ⟨"A", 1, 2, "a12"⟩, ⟨"A", 2, 1, "a21"⟩, ⟨"B", 1, 1, "b11"⟩]

/-- The database `initBB c5Lines` builds. -/
def c5BB : BibleBooks :=
  { verses := [(⟨"A", 1, 1⟩, "a11"), (⟨"A", 1, 2⟩, "a12"),
               (⟨"A", 2, 1⟩, "a21"), (⟨"B", 1, 1⟩, "b11")]
    books := [("A", [(1, 2), (2, 1)]), ("B", [(1, 1)])] }

/-- What the spec means by "busting" between a pre-state and a
post-state: if a cached artifact path was recorded before the mutation,
afterwards both cache slots are cleared and the cached file no longer
exists. -/
def cacheBusted (pre post : AppState) : Prop :=
  ∀ cf, pre.sess.preview_cache_file = some cf →
    post.sess.preview_cache_file = none ∧ post.sess.preview_mime_type = none ∧
      cf ∉ post.fs

/-- A session holding one card and a populated cache slot, with the
cached artifact on disk. -/
def c8State : AppState :=
  { sess := { cards := some [c1Card], book := none, chapvers := none,
              options := none, preview_cache_file := some "cached.pdf",
              preview_mime_type := some none }
    fs := ["cached.pdf"] }

/-- The state after deleting the only card of `c8State`: deck empty,
cache slots cleared, cached file gone. -/
def c8PostState : AppState :=
  { sess := { cards := some [], book := none, chapvers := none,
              options := none, preview_cache_file := none,
              preview_mime_type := none }
    fs := [] }

/-- The shape `RX_NAME` requires of a book code standing at the front of
a reference string: a letter followed by letters/digits.  (Every key of
`BOOK_NAMES`, hence every book code of a loaded database, has this
shape.) -/
def BookNameShape (b : String) : Prop :=
  ∃ c cs, b.data = c :: cs ∧ c.isAlpha = true ∧ ∀ d ∈ cs, isAlnumC d = true

/-- `ds` is a nonempty digit run whose `int` value is `n` — the shape
`RX_NUM` consumes and the way `"B C"` writes the chapter number `C`. -/
def DenotesNum (ds : List Char) (n : Nat) : Prop :=
  ds ≠ [] ∧ (∀ c ∈ ds, c.isDigit = true) ∧ digitsToNat ds = n

/-! ## C1 — verse-text edit guard -/

/-- **C1.**  The claim says a PUT verse edit is accepted exactly when the
new text contains the original as a substring (superstring accepted,
text dropping original wording rejected).  The code's guard is
`if not new_text in v.text: abort(403)` — the reversed containment: a
proper superstring of the original is rejected with 403, while a proper
substring of the original (which drops original wording) is accepted and
stored.  Evaluated here on the spec's own worked example. -/
theorem C1_edit_guard_is_reversed :
    edit_card_verse_text_put c1State "u-c1" 16 "For God so loved the world..."
      = .error (.abort 403) ∧
    edit_card_verse_text_put c1State "u-c1" 16 "God loved..."
      = .error (.abort 403) ∧
    (edit_card_verse_text_put c1State "u-c1" 16 "God so loved").map
      (fun p => p.2) = .ok ⟨16, "God so loved"⟩ := by
  refine ⟨by decide, by decide, by decide⟩

/-! ## C2 — the loader invariant at a same-numbered chapter boundary -/

/-- **C2.**  The claim says that after construction every `VerseRef` in
`verses` has a chapter entry in `books` no smaller than its verse
number, in particular across a boundary where a single-chapter book is
followed by a book starting at the same chapter number.  In the code the
previous chapter is only finalized when the chapter *number* changes, so
at such a boundary the closing book's chapter map is stored empty: after
loading `Oba 1:1` then `Jon 1:1`, `verses` holds `("Oba", 1, 1)` but
`books["Oba"]` is `{}` — the invariant is violated. -/
theorem C2_loader_invariant_violated :
    (initBB c2Lines).map (fun bb =>
      (booksCoverVerses bb, bb.verses.lookup ⟨"Oba", 1, 1⟩, bb.books.lookup "Oba"))
      = .ok (false, some "obadiah text", some []) := by decide

/-! ## C3 — the Add failure path -/

/-- **C3.**  The claim says a parse/lookup failure during Add surfaces a
flash message and completes.  The `except` handler in both `index` and
`add_card` formats its flash message with the unbound name `title`, so
the handler itself raises `NameError` and the request fails with a 500
instead of flashing: on the malformed reference `"3:"` (missing verse
after the colon) the parse raises a `SyntaxError`, and both endpoints
then die with `NameError`. -/
theorem C3_flash_message_raises_nameError :
    build_verses johBB "Joh 3:" = .error (.synErr "expected number") ∧
    index johBB emptyAppState (some "Add") "Joh" "3:" "u-c3" = .error .nameError ∧
    add_card johBB emptyAppState "Joh" "3:" "u-c3" = .error .nameError := by
  refine ⟨by decide, by decide, by decide⟩

/-! ## Association-list lemmas -/

theorem lookup_dictSet_self {β : Type} (k : String) (v : β) (l : List (String × β)) :
    (dictSet k v l).lookup k = some v := by
  induction l with
  | nil => simp [dictSet, List.lookup]
  | cons kv rest ih =>
    obtain ⟨k1, v1⟩ := kv
    by_cases h : k = k1
    · simp [dictSet, List.lookup, h]
    · have hb : (k == k1) = false := by simp [h]
      simp [dictSet, List.lookup, hb, ih]

theorem lookup_dictSet_ne {β : Type} (k k2 : String) (v : β) (l : List (String × β))
    (h : k ≠ k2) : (dictSet k2 v l).lookup k = l.lookup k := by
  have hb : (k == k2) = false := by simp [h]
  induction l with
  | nil => simp [dictSet, List.lookup, hb]
  | cons kv rest ih =>
    obtain ⟨k1, v1⟩ := kv
    by_cases h2 : k2 = k1
    · subst h2; simp [dictSet, List.lookup, hb]
    · have hb2 : (k2 == k1) = false := by simp [h2]
      by_cases h3 : k = k1
      · subst h3; simp [dictSet, List.lookup, hb2]
      · have hb3 : (k == k1) = false := by simp [h3]
        simp [dictSet, List.lookup, hb2, hb3, ih]

/-- Folding the `optimized_card` / option-update step over a map whose
keys all differ from `k` leaves the value stored at `k` alone. -/
theorem foldl_options_lookup_stable (k : String) (omap : List (String × OptionDef)) :
    ∀ (c c2 : Card), (∀ kv ∈ omap, kv.fst ≠ k) →
    omap.foldlM (fun c kv => do
      let raw := (c.options.lookup kv.fst).getD kv.snd.default
      let v ← kv.snd.validate raw
      Except.ok { c with options := dictSet kv.fst v c.options }) c = .ok c2 →
    c2.options.lookup k = c.options.lookup k := by
  induction omap with
  | nil =>
    intro c c2 _ h
    simp only [List.foldlM, pure, Except.pure, Except.ok.injEq] at h
    subst h; rfl
  | cons kv rest ih =>
    intro c c2 hk h
    rw [List.foldlM_cons] at h
    simp only [bind, Except.bind] at h
    cases hv : kv.snd.validate ((c.options.lookup kv.fst).getD kv.snd.default) with
    | error e => rw [hv] at h; exact absurd h (by simp)
    | ok v =>
      rw [hv] at h
      have hrest := ih { c with options := dictSet kv.fst v c.options } c2
        (fun kv2 hm => hk kv2 (List.mem_cons_of_mem _ hm)) h
      rw [hrest]
      exact lookup_dictSet_ne k kv.fst v c.options
        (Ne.symm (hk kv (List.mem_cons_self _ _)))

/-! ## C9 — option validation and defaulting -/

/-- **C9.**  `paper_size` validation accepts `"avery5388"` unchanged and
rejects `"letter"` (outside the declared choice list) with a
`ValueError`; and `optimized_card` on a card whose option map lacks
`paragraphs` assigns that option its declared default `True`. -/
theorem C9_option_validation :
    paper_size_opt.validate (.str "avery5388") = .ok (.str "avery5388") ∧
    paper_size_opt.validate (.str "letter")
      = .error (.valueError "letter is not in the list of allowed values") ∧
    ∀ card card2 : Card, card.options.lookup "paragraphs" = none →
      optimized_card card = .ok card2 →
      card2.options.lookup "paragraphs" = some (.bool true) := by
  refine ⟨by decide, by decide, ?_⟩
  intro card card2 hnone hok
  rw [optimized_card, CARD_OPTION_MAP, List.foldlM_cons] at hok
  simp only [bind, Except.bind] at hok
  rw [hnone] at hok
  have hval : paragraphs_opt.validate ((none : Option PyVal).getD paragraphs_opt.default)
      = .ok (.bool true) := by decide
  rw [hval] at hok
  have hstable := foldl_options_lookup_stable "paragraphs"
    [("columns", columns_opt), ("ragged_right", ragged_right_opt),
     ("title_size", title_size_opt), ("text_size", text_size_opt),
     ("num_size", num_size_opt)]
    { card with options := dictSet "paragraphs" (.bool true) card.options } card2
    (by decide) hok
  rw [hstable]
  exact lookup_dictSet_self "paragraphs" (.bool true) card.options

/-- Witness for C9: a concrete card with an empty option map gets
`paragraphs = True` after `optimized_card`. -/
theorem C9_option_validation_witness :
    optimized_card (Card.new "t" [] "u-c9") = .ok c9ResultCard ∧
    c9ResultCard.options.lookup "paragraphs" = some (.bool true) :=
  ⟨by decide,
   C9_option_validation.2.2 (Card.new "t" [] "u-c9") c9ResultCard (by decide) (by decide)⟩

/-! ## C10 — boolean options have no textual parsing -/

/-- **C10.**  For any boolean-kind option without a choice list (all of
`frame`, `grid`, `paragraphs`, `columns`, `ragged_right`), validating a
raw string applies Python `bool(...)`: any nonempty string — including
`"false"`, `"off"`, `"0"` — validates to `True`, the empty string to
`False`; and the kind's zero value `bool()` (substituted by the
option-update endpoints for an absent form field) validates to
`False`. -/
theorem C10_bool_validation_is_truthiness (o : OptionDef)
    (hk : o.kind = .bool) (hc : o.choices = none) :
    (∀ s : String, o.validate (.str s) = .ok (.bool (s != ""))) ∧
    o.validate (.bool false) = .ok (.bool false) := by
  constructor
  · intro s
    simp [OptionDef.validate, isinst, kindCoerce, hk, hc]
  · simp [OptionDef.validate, isinst, kindCoerce, hk, hc]

/-- Witness for C10, at the `paragraphs` card option. -/
theorem C10_bool_validation_witness :
    paragraphs_opt.validate (.str "false") = .ok (.bool true) ∧
    paragraphs_opt.validate (.str "off") = .ok (.bool true) ∧
    paragraphs_opt.validate (.str "0") = .ok (.bool true) ∧
    paragraphs_opt.validate (.str "") = .ok (.bool false) ∧
    paragraphs_opt.validate (.bool false) = .ok (.bool false) :=
  ⟨(C10_bool_validation_is_truthiness paragraphs_opt rfl rfl).1 "false",
   (C10_bool_validation_is_truthiness paragraphs_opt rfl rfl).1 "off",
   (C10_bool_validation_is_truthiness paragraphs_opt rfl rfl).1 "0",
   (C10_bool_validation_is_truthiness paragraphs_opt rfl rfl).1 "",
   (C10_bool_validation_is_truthiness paragraphs_opt rfl rfl).2⟩

/-! ## C4 — unsupported preview format -/

/-- **C4 counterexample.**  The claim says any `fmt` outside
`{PDF, LaTeX}` yields HTTP 400 *regardless of session state, in
particular with an empty deck* — but with an empty deck
`preview_output_src` returns the placeholder message (HTTP 200) before
ever looking at `fmt`. -/
theorem C4_counterexample_empty_deck_no_400 :
    preview_output_src emptyAppState "XYZ" "fresh.pdf"
      = .ok (emptyAppState, .placeholder) := by decide

/-- **C4 (amended).**  A `fmt` outside `{PDF, LaTeX}` yields
`abort(400)` provided the deck is nonempty and no valid cached artifact
is present (with an empty deck the placeholder is returned, and a valid
cached artifact is served as-is, in both cases regardless of `fmt`). -/
theorem C4_bad_format_400 (st : AppState) (fmt freshFile : String)
    (hcards : (st.sess.cards.getD []).length ≠ 0)
    (hcache : (get_cache_file st).1 = none)
    (hpdf : fmt ≠ "PDF") (htex : fmt ≠ "LaTeX") :
    preview_output_src st fmt freshFile = .error (.abort 400) := by
  have h1 : ((st.sess.cards.getD []).length == 0) = false := by
    simpa using hcards
  have h2 : (fmt == "PDF") = false := by simpa using hpdf
  have h3 : (fmt == "LaTeX") = false := by simpa using htex
  rcases hgc : get_cache_file st with ⟨cf, mt⟩
  rw [hgc] at hcache
  simp only at hcache
  subst hcache
  simp [preview_output_src, h1, h2, h3, hgc]

/-- Witness for the amended C4: one card in the deck, no cache, bogus
format. -/
theorem C4_bad_format_400_witness :
    preview_output_src c1State "XYZ" "fresh.pdf" = .error (.abort 400) :=
  C4_bad_format_400 c1State "XYZ" "fresh.pdf" (by decide) (by decide)
    (by decide) (by decide)

/-! ## C5 — next-reference traversal -/

/-- **C5 counterexample.**  The claim says every *valid* ref is mapped by
`get_next_ref` to verse+1 / chapter+1 / the next book's 1:1 — but at the
last verse of the last book there is no next book and the code raises
(`book_seq[book_i + 1]` is an `IndexError`), returning nothing at all:
on the loaded database `c5BB`, the ref `(B, 1, 1)` is valid yet
`get_next_ref` raises instead of returning a `VerseRef`. -/
theorem C5_counterexample_end_of_canon_raises :
    initBB c5Lines = .ok c5BB ∧
    is_valid_ref c5BB ⟨"B", 1, 1⟩ = true ∧
    get_next_ref c5BB ⟨"B", 1, 1⟩ = .error .indexError := by
  refine ⟨by decide, by decide, by decide⟩

/-- **C5 (amended).**  For every database and ref: an invalid ref is
returned unchanged; a valid ref steps to verse+1 if valid, else to
(chapter+1, 1) if valid, else to (next book in file-encounter order,
1, 1) *when such a book exists and that ref is valid* — when the book
list is exhausted the call raises instead of returning; and
`refs_are_contiguous a b` returns `True` iff `get_next_ref a` returns
normally with exactly `b`. -/
theorem C5_get_next_ref_cases (bb : BibleBooks) (v : VerseRef) :
    (is_valid_ref bb v = false → get_next_ref bb v = .ok v) ∧
    (is_valid_ref bb v = true →
      (is_valid_ref bb ⟨v.book, v.chapter, v.verse + 1⟩ = true →
        get_next_ref bb v = .ok ⟨v.book, v.chapter, v.verse + 1⟩) ∧
      (is_valid_ref bb ⟨v.book, v.chapter, v.verse + 1⟩ = false →
        is_valid_ref bb ⟨v.book, v.chapter + 1, 1⟩ = true →
        get_next_ref bb v = .ok ⟨v.book, v.chapter + 1, 1⟩) ∧
      (∀ nb, is_valid_ref bb ⟨v.book, v.chapter, v.verse + 1⟩ = false →
        is_valid_ref bb ⟨v.book, v.chapter + 1, 1⟩ = false →
        (bb.books.map Prod.fst).get?
          ((bb.books.map Prod.fst).indexOf v.book + 1) = some nb →
        is_valid_ref bb ⟨nb, 1, 1⟩ = true →
        get_next_ref bb v = .ok ⟨nb, 1, 1⟩) ∧
      (is_valid_ref bb ⟨v.book, v.chapter, v.verse + 1⟩ = false →
        is_valid_ref bb ⟨v.book, v.chapter + 1, 1⟩ = false →
        (bb.books.map Prod.fst).get?
          ((bb.books.map Prod.fst).indexOf v.book + 1) = none →
        get_next_ref bb v = .error .indexError)) ∧
    (∀ v2, refs_are_contiguous bb v v2 = .ok true ↔ get_next_ref bb v = .ok v2) := by
  refine ⟨?_, ?_, ?_⟩
  · intro h; simp [get_next_ref, h]
  · intro hv
    refine ⟨?_, ?_, ?_, ?_⟩
    · intro h1; simp [get_next_ref, hv, h1]
    · intro h1 h2; simp [get_next_ref, hv, h1, h2]
    · intro nb h1 h2 h3 h4
      simp only [List.get?_eq_getElem?, List.getElem?_map] at h3
      simp [get_next_ref, hv, h1, h2, h3, h4]
    · intro h1 h2 h3
      simp only [List.get?_eq_getElem?, List.getElem?_map] at h3
      simp [get_next_ref, hv, h1, h2, h3]
  · intro v2
    unfold refs_are_contiguous
    cases h : get_next_ref bb v with
    | error e => simp [Except.map]
    | ok r =>
      simp only [Except.map, Except.ok.injEq]
      constructor
      · intro hr; simpa using hr
      · intro hr; simp [hr]

/-- Witness for the amended C5, on the `c5BB` fixture: stepping within a
chapter, across a chapter, across a book, and the contiguity test. -/
theorem C5_get_next_ref_cases_witness :
    get_next_ref c5BB ⟨"A", 1, 1⟩ = .ok ⟨"A", 1, 2⟩ ∧
    get_next_ref c5BB ⟨"A", 1, 2⟩ = .ok ⟨"A", 2, 1⟩ ∧
    get_next_ref c5BB ⟨"A", 2, 1⟩ = .ok ⟨"B", 1, 1⟩ ∧
    get_next_ref c5BB ⟨"A", 9, 9⟩ = .ok ⟨"A", 9, 9⟩ ∧
    refs_are_contiguous c5BB ⟨"A", 1, 2⟩ ⟨"A", 2, 1⟩ = .ok true :=
  ⟨(C5_get_next_ref_cases c5BB ⟨"A", 1, 1⟩).2.1 (by decide) |>.1 (by decide),
   ((C5_get_next_ref_cases c5BB ⟨"A", 1, 2⟩).2.1 (by decide)).2.1 (by decide) (by decide),
   ((C5_get_next_ref_cases c5BB ⟨"A", 2, 1⟩).2.1 (by decide)).2.2.1 "B"
     (by decide) (by decide) (by decide) (by decide),
   (C5_get_next_ref_cases c5BB ⟨"A", 9, 9⟩).1 (by decide),
   ((C5_get_next_ref_cases c5BB ⟨"A", 1, 2⟩).2.2 ⟨"A", 2, 1⟩).mpr
     (((C5_get_next_ref_cases c5BB ⟨"A", 1, 2⟩).2.1 (by decide)).2.1
       (by decide) (by decide))⟩

/-! ## C8 — every mutation busts the cache -/

/-- A successful `bust_cache_file` clears both slots and removes the
previously cached file from the filesystem. -/
theorem bust_cache_file_clears (st st2 : AppState)
    (h : bust_cache_file st = .ok st2) (cf : String)
    (hcf : st.sess.preview_cache_file = some cf) :
    st2.sess.preview_cache_file = none ∧ st2.sess.preview_mime_type = none ∧
      cf ∉ st2.fs := by
  rw [bust_cache_file, hcf] at h
  cases hm : st.sess.preview_mime_type with
  | none => rw [hm] at h; exact absurd h (by simp)
  | some m =>
    rw [hm] at h
    simp only [Except.ok.injEq] at h
    subst h
    refine ⟨rfl, rfl, ?_⟩
    by_cases hin : st.fs.contains cf = true
    · rw [if_pos hin]
      simp only [fsUnlink]
      intro hmem
      have h2 := (List.mem_filter.mp hmem).2
      simp at h2
    · rw [if_neg hin]
      intro hmem
      exact hin (List.elem_eq_true_of_mem hmem)

/-- Busting from any intermediate state whose cache-path slot agrees with
the pre-state busts relative to the pre-state. -/
theorem cacheBusted_of_bust {pre mid post : AppState}
    (h : bust_cache_file mid = .ok post)
    (hp : mid.sess.preview_cache_file = pre.sess.preview_cache_file) :
    cacheBusted pre post := by
  intro cf hcf
  exact bust_cache_file_clears mid post h cf (by rw [hp, hcf])

/-- **C8.**  Every state-mutating request — Add (both the form action and
the ajax endpoint), Reset, card deletion, per-card option update,
document option update, title edit, verse-text edit — that completes
normally ends in `bust_cache_file`: if a cached artifact path was
present before the mutation, its file is deleted and both cache slots
are cleared, so a later preview request cannot be served the
pre-mutation artifact. -/
theorem C8_mutations_bust_cache (bb : BibleBooks) (st : AppState)
    (book chapvers freshUuid uuidArg newtitle newtext : String) (num : Nat)
    (form : List (String × String)) :
    (∀ st2 fl, index bb st (some "Add") book chapvers freshUuid = .ok (st2, fl) →
      cacheBusted st st2) ∧
    (∀ st2 fl, index bb st (some "Reset") book chapvers freshUuid = .ok (st2, fl) →
      cacheBusted st st2) ∧
    (∀ st2 r, add_card bb st book chapvers freshUuid = .ok (st2, r) →
      cacheBusted st st2) ∧
    (∀ st2, delete_card st uuidArg = .ok st2 → cacheBusted st st2) ∧
    (∀ st2, set_card_options st uuidArg form = .ok st2 → cacheBusted st st2) ∧
    (∀ st2, set_doc_options st form = .ok st2 → cacheBusted st st2) ∧
    (∀ st2, edit_card_title_put st uuidArg newtitle = .ok st2 → cacheBusted st st2) ∧
    (∀ st2 v, edit_card_verse_text_put st uuidArg num newtext = .ok (st2, v) →
      cacheBusted st st2) := by
  refine ⟨?_, ?_, ?_, ?_, ?_, ?_, ?_, ?_⟩
  · -- index, action = Add
    intro st2 fl h
    simp only [index, bind, Except.bind, Except.map, titleLocal] at h
    split at h
    · exact absurd h (by simp)
    · split at h
      · exact absurd h (by simp)
      · split at h
        · exact absurd h (by simp)
        · rename_i st3 hbust
          simp only [Except.ok.injEq, Prod.mk.injEq] at h
          obtain ⟨h1, h2⟩ := h
          subst h1
          exact cacheBusted_of_bust hbust rfl
  · -- index, action = Reset
    intro st2 fl h
    simp only [index, bind, Except.bind, delKey] at h
    split at h
    · exact absurd h (by simp)
    · split at h
      · exact absurd h (by simp)
      · split at h
        · exact absurd h (by simp)
        · split at h
          · exact absurd h (by simp)
          · rename_i st3 hbust
            simp only [Except.ok.injEq, Prod.mk.injEq] at h
            obtain ⟨h1, h2⟩ := h
            subst h1
            exact cacheBusted_of_bust hbust rfl
  · -- add_card
    intro st2 r h
    simp only [add_card, bind, Except.bind, Except.map, titleLocal] at h
    split at h
    · exact absurd h (by simp)
    · split at h
      · exact absurd h (by simp)
      · split at h
        · exact absurd h (by simp)
        · rename_i st3 hbust
          simp only [Except.ok.injEq, Prod.mk.injEq] at h
          obtain ⟨h1, h2⟩ := h
          subst h1
          exact cacheBusted_of_bust hbust rfl
  · -- delete_card
    intro st2 h
    simp only [delete_card, bind, Except.bind] at h
    split at h
    · exact absurd h (by simp)
    · split at h
      · exact cacheBusted_of_bust h rfl
      · exact absurd h (by simp)
  · -- set_card_options
    intro st2 h
    simp only [set_card_options, bind, Except.bind] at h
    split at h
    · exact absurd h (by simp)
    · split at h
      · exact absurd h (by simp)
      · exact cacheBusted_of_bust h rfl
  · -- set_doc_options
    intro st2 h
    simp only [set_doc_options, bind, Except.bind] at h
    split at h
    · exact absurd h (by simp)
    · exact cacheBusted_of_bust h rfl
  · -- edit_card_title_put
    intro st2 h
    simp only [edit_card_title_put, bind, Except.bind] at h
    split at h
    · exact absurd h (by simp)
    · exact cacheBusted_of_bust h rfl
  · -- edit_card_verse_text_put
    intro st2 v h
    simp only [edit_card_verse_text_put, bind, Except.bind] at h
    split at h
    · exact absurd h (by simp)
    · split at h
      · exact absurd h (by simp)
      · split at h
        · exact absurd h (by simp)
        · split at h
          · exact absurd h (by simp)
          · rename_i st3 hbust
            simp only [Except.ok.injEq, Prod.mk.injEq] at h
            obtain ⟨h1, h2⟩ := h
            subst h1
            exact cacheBusted_of_bust hbust rfl

/-- Witness for C8: deleting the only card of a session whose cache slot
holds `cached.pdf` clears both slots and removes the file. -/
theorem C8_mutations_bust_cache_witness :
    delete_card c8State "u-c1" = .ok c8PostState ∧
    (c8PostState.sess.preview_cache_file = none ∧
     c8PostState.sess.preview_mime_type = none ∧
     "cached.pdf" ∉ c8PostState.fs) :=
  ⟨by decide,
   (C8_mutations_bust_cache jhnBB c8State "b" "cv" "fu" "u-c1" "nt" "ntx" 1
     []).2.2.2.1 c8PostState (by decide) "cached.pdf" (by decide)⟩

/-! ## Character-class and cursor lemmas for the reference grammar -/

theorem ws_char_cases {c : Char} (h : c.isWhitespace = true) :
    c = ' ' ∨ c = '\t' ∨ c = '\r' ∨ c = '\n' := by
  have h2 : ((c = ' ' ∨ c = '\t') ∨ c = '\r') ∨ c = '\n' := by
    simpa [Char.isWhitespace] using h
  tauto

theorem digit_not_ws {c : Char} (h : c.isDigit = true) : c.isWhitespace = false := by
  cases hw : c.isWhitespace
  · rfl
  · rcases ws_char_cases hw with rfl | rfl | rfl | rfl <;> exact absurd h (by decide)

theorem alpha_not_ws {c : Char} (h : c.isAlpha = true) : c.isWhitespace = false := by
  cases hw : c.isWhitespace
  · rfl
  · rcases ws_char_cases hw with rfl | rfl | rfl | rfl <;> exact absurd h (by decide)

theorem takeWhile_append_stop {p : Char → Bool} {l1 : List Char}
    (h1 : ∀ c ∈ l1, p c = true) {c : Char} (hc : p c = false) (l2 : List Char) :
    (l1 ++ c :: l2).takeWhile p = l1 := by
  induction l1 with
  | nil => simp [List.takeWhile_cons, hc]
  | cons a as ih =>
    have ha : p a = true := h1 a (List.mem_cons_self _ _)
    simp [List.takeWhile_cons, ha,
      ih (fun x hx => h1 x (List.mem_cons_of_mem _ hx))]

theorem dropWhile_append_stop {p : Char → Bool} {l1 : List Char}
    (h1 : ∀ c ∈ l1, p c = true) {c : Char} (hc : p c = false) (l2 : List Char) :
    (l1 ++ c :: l2).dropWhile p = c :: l2 := by
  induction l1 with
  | nil => simp [List.dropWhile_cons, hc]
  | cons a as ih =>
    have ha : p a = true := h1 a (List.mem_cons_self _ _)
    simp [List.dropWhile_cons, ha,
      ih (fun x hx => h1 x (List.mem_cons_of_mem _ hx))]

theorem takeWhile_of_all {p : Char → Bool} {l : List Char}
    (h : ∀ c ∈ l, p c = true) : l.takeWhile p = l := by
  induction l with
  | nil => rfl
  | cons a as ih =>
    have ha : p a = true := h a (List.mem_cons_self _ _)
    simp [List.takeWhile_cons, ha,
      ih (fun x hx => h x (List.mem_cons_of_mem _ hx))]

theorem dropWhile_of_all {p : Char → Bool} {l : List Char}
    (h : ∀ c ∈ l, p c = true) : l.dropWhile p = [] := by
  induction l with
  | nil => rfl
  | cons a as ih =>
    have ha : p a = true := h a (List.mem_cons_self _ _)
    simp [List.dropWhile_cons, ha,
      ih (fun x hx => h x (List.mem_cons_of_mem _ hx))]

/-- A list whose head (if any) is non-whitespace survives `eat_ws`. -/
theorem dropWhile_ws_of_head {tail : List Char}
    (hr : ∀ c rs, tail = c :: rs → c.isWhitespace = false) :
    tail.dropWhile Char.isWhitespace = tail := by
  cases tail with
  | nil => rfl
  | cons c rs => simp [List.dropWhile_cons, hr c rs rfl]

/-- `read_name` on a well-shaped book code followed by one space and a
remainder not starting with whitespace. -/
theorem readName_spec (b : String) (hb : BookNameShape b) (rest : List Char)
    (hr : ∀ c rs, rest = c :: rs → c.isWhitespace = false) :
    readName (b.data ++ ' ' :: rest) = .ok (b, rest) := by
  obtain ⟨c, cs, hdata, halpha, halnum⟩ := hb
  rw [hdata, List.cons_append, readName]
  simp only [halpha, if_true]
  rw [takeWhile_append_stop halnum (by decide) rest,
      dropWhile_append_stop halnum (by decide) rest]
  simp only [show (' ' : Char).isWhitespace = true from by decide, if_true]
  rw [dropWhile_ws_of_head hr]
  have hbmk : String.mk (c :: cs) = b := by rw [← hdata]
  rw [hbmk]

/-- `read_num` on a digit run followed by a remainder that starts with
neither a digit nor whitespace (or is empty). -/
theorem readNum_spec (ds : List Char) (n : Nat) (hd : DenotesNum ds n)
    (rest : List Char)
    (hr : ∀ c rs, rest = c :: rs → c.isDigit = false ∧ c.isWhitespace = false) :
    readNum (ds ++ rest) = .ok (n, rest) := by
  obtain ⟨hne, hdig, hval⟩ := hd
  have ht : (ds ++ rest).takeWhile Char.isDigit = ds := by
    cases rest with
    | nil => rw [List.append_nil]; exact takeWhile_of_all hdig
    | cons c rs => exact takeWhile_append_stop hdig (hr c rs rfl).1 rs
  have hdp : (ds ++ rest).dropWhile Char.isDigit = rest := by
    cases rest with
    | nil => rw [List.append_nil]; exact dropWhile_of_all hdig
    | cons c rs => exact dropWhile_append_stop hdig (hr c rs rfl).1 rs
  rw [readNum, ht, hdp]
  cases ds with
  | nil => exact absurd rfl hne
  | cons d ds2 =>
    rw [dropWhile_ws_of_head (fun c rs hc => (hr c rs hc).2)]
    simp only [hval]

/-! ## C6 — whole-chapter references -/

/-- **C6.**  For a known book code `b` (well-shaped for `RX_NAME`, as all
database book codes are) and a chapter of `b` with last verse `lv`,
parsing the string `"b C"` (book, one space, the chapter numeral, no
colon, no further input) yields exactly the refs `(b, C, 1)` through
`(b, C, lv)` in increasing verse order. -/
theorem C6_whole_chapter (bb : BibleBooks) (b : String) (ds : List Char)
    (chap lv : Nat) (hb : BookNameShape b) (hds : DenotesNum ds chap)
    (hlv : last_verse bb b chap = .ok lv) (s : String)
    (hs : s.data = b.data ++ ' ' :: ds) :
    parse_ref bb s = .ok ((pyRange 1 (lv + 1)).map (fun i => VerseRef.mk b chap i)) := by
  obtain ⟨c, cs, hdata, halpha, halnum⟩ := hb
  have hb2 : BookNameShape b := ⟨c, cs, hdata, halpha, halnum⟩
  have hdshead : ∀ x rs, ds = x :: rs → x.isWhitespace = false := by
    intro x rs hx
    exact digit_not_ws (hds.2.1 x (by rw [hx]; exact List.mem_cons_self _ _))
  have hdw : s.data.dropWhile Char.isWhitespace = b.data ++ ' ' :: ds := by
    rw [hs, hdata, List.cons_append, List.dropWhile_cons]
    simp [alpha_not_ws halpha]
  have hne : (b.data ++ ' ' :: ds).isEmpty = false := by
    rw [hdata]; rfl
  have hrn : readName (b.data ++ ' ' :: ds) = .ok (b, ds) :=
    readName_spec b hb2 ds hdshead
  have hrnum : readNum ds = .ok (chap, []) := by
    have := readNum_spec ds chap hds []
      (fun x rs hx => absurd hx (by simp))
    simpa using this
  rw [parse_ref, hdw]
  simp only [parseGroups, bind, Except.bind, optStrTruthy, hne, hrn, hrnum]
  simp [hlv]

/-- Witness for C6: `"Jhn 2"` against the fixture database expands to
all 25 verses of John 2 in order. -/
theorem C6_whole_chapter_witness :
    parse_ref jhnBB "Jhn 2" = .ok ((pyRange 1 26).map (fun i => VerseRef.mk "Jhn" 2 i)) :=
  C6_whole_chapter jhnBB "Jhn" ['2'] 2 25
    ⟨'J', ['h', 'n'], by decide, by decide, by decide⟩
    ⟨by decide, by decide, by decide⟩ (by decide) "Jhn 2" (by decide)

/-! ## C7 — comma lists and same-chapter ranges -/

/-- Evaluating one group header `"b dc:d1"`: the book name, chapter
numeral, colon and first verse numeral are consumed, the first ref is
yielded, and the parse continues with the clause loop on `rest`. -/
theorem parseGroups_single_group (bb : BibleBooks) (b : String)
    (dc d1 rest : List Char) (chap v1 : Nat) (fuel : Nat)
    (hb : BookNameShape b) (hdc : DenotesNum dc chap) (hd1 : DenotesNum d1 v1)
    (hrest : ∀ c rs, rest = c :: rs → c.isDigit = false ∧ c.isWhitespace = false) :
    parseGroups bb none (b.data ++ (' ' :: (dc ++ (':' :: (d1 ++ rest))))) (fuel + 1) =
      match parseClauses bb b chap v1 rest fuel with
      | .error e => .error e
      | .ok p =>
        match parseGroups bb (some b) p.2 fuel with
        | .error e => .error e
        | .ok tailRefs => .ok (VerseRef.mk b chap v1 :: (p.1 ++ tailRefs)) := by
  obtain ⟨c, cs, hdata, halpha, halnum⟩ := hb
  have hb2 : BookNameShape b := ⟨c, cs, hdata, halpha, halnum⟩
  obtain ⟨e1, es1, hd1data⟩ : ∃ e es, d1 = e :: es := by
    cases hx : d1 with
    | nil => exact absurd hx hd1.1
    | cons e es => exact ⟨e, es, rfl⟩
  have hdchead : ∀ x rs, dc ++ (':' :: (d1 ++ rest)) = x :: rs →
      x.isWhitespace = false := by
    intro x rs hx
    cases hdc2 : dc with
    | nil => exact absurd hdc2 hdc.1
    | cons y ys =>
      rw [hdc2, List.cons_append] at hx
      have hxy : x = y := (List.cons.injEq _ _ _ _ ▸ hx).1.symm
      subst hxy
      exact digit_not_ws (hdc.2.1 x (by rw [hdc2]; exact List.mem_cons_self _ _))
  have hne : (b.data ++ (' ' :: (dc ++ (':' :: (d1 ++ rest))))).isEmpty = false := by
    rw [hdata]; rfl
  have hrn : readName (b.data ++ (' ' :: (dc ++ (':' :: (d1 ++ rest)))))
      = .ok (b, dc ++ (':' :: (d1 ++ rest))) :=
    readName_spec b hb2 _ hdchead
  have hrdc : readNum (dc ++ (':' :: (d1 ++ rest))) = .ok (chap, ':' :: (d1 ++ rest)) :=
    readNum_spec dc chap hdc (':' :: (d1 ++ rest))
      (by intro x rs hx
          have hxc : x = ':' := (List.cons.injEq _ _ _ _ ▸ hx).1.symm
          subst hxc
          exact ⟨by decide, by decide⟩)
  have hd1head : ∀ x rs, d1 ++ rest = x :: rs → x.isWhitespace = false := by
    intro x rs hx
    rw [hd1data, List.cons_append] at hx
    have hxy : x = e1 := (List.cons.injEq _ _ _ _ ▸ hx).1.symm
    subst hxy
    exact digit_not_ws (hd1.2.1 x (by rw [hd1data]; exact List.mem_cons_self _ _))
  have hreq : require ":" (':' :: (d1 ++ rest)) = .ok (d1 ++ rest) := by
    show Except.ok ((d1 ++ rest).dropWhile Char.isWhitespace) = _
    rw [dropWhile_ws_of_head hd1head]
  have hrd1 : readNum (d1 ++ rest) = .ok (v1, rest) := readNum_spec d1 v1 hd1 rest hrest
  simp only [parseGroups, bind, Except.bind, optStrTruthy, hne, hrn, hrdc, hreq, hrd1]
  have hner : (':' :: (d1 ++ rest)).isEmpty = false := rfl
  simp only [hner, Bool.false_eq_true, if_false]
  cases hpc : parseClauses bb b chap v1 rest fuel with
  | error e => simp
  | ok p =>
    cases hpg : parseGroups bb (some b) p.2 fuel with
    | error e2 => simp [hpg]
    | ok t => simp [hpg]

/-- The clause loop on `",d2"`: one more single verse, then end of
input. -/
theorem parseClauses_comma (bb : BibleBooks) (b : String) (chap v1 v2 : Nat)
    (d2 : List Char) (g : Nat) (hd2 : DenotesNum d2 v2) :
    parseClauses bb b chap v1 (',' :: d2) ((g + 1) + 1)
      = .ok ([VerseRef.mk b chap v2], []) := by
  have hd2head : ∀ x rs, d2 = x :: rs → x.isWhitespace = false := fun x rs hx =>
    digit_not_ws (hd2.2.1 x (by rw [hx]; exact List.mem_cons_self _ _))
  have hrnum : readNum d2 = .ok (v2, []) := by
    have := readNum_spec d2 v2 hd2 [] (fun x rs hx => absurd hx (by simp))
    simpa using this
  have hacc : accept "," (',' :: d2) = some d2 := by
    show some (d2.dropWhile Char.isWhitespace) = _
    rw [dropWhile_ws_of_head hd2head]
  simp only [parseClauses, bind, Except.bind, hacc, hrnum]
  simp

/-- The clause loop on `"-d2"` (no following colon): the same-chapter
range body `v1+1 .. v2`, then end of input. -/
theorem parseClauses_range (bb : BibleBooks) (b : String) (chap v1 v2 : Nat)
    (d2 : List Char) (g : Nat) (hd2 : DenotesNum d2 v2) :
    parseClauses bb b chap v1 ('-' :: d2) ((g + 1) + 1)
      = .ok ((pyRange (v1 + 1) (v2 + 1)).map (fun v => VerseRef.mk b chap v), []) := by
  have hd2head : ∀ x rs, d2 = x :: rs → x.isWhitespace = false := fun x rs hx =>
    digit_not_ws (hd2.2.1 x (by rw [hx]; exact List.mem_cons_self _ _))
  have hrnum : readNum d2 = .ok (v2, []) := by
    have := readNum_spec d2 v2 hd2 [] (fun x rs hx => absurd hx (by simp))
    simpa using this
  have haccc : accept "," ('-' :: d2) = none := rfl
  have haccd : accept "-" ('-' :: d2) = some d2 := by
    show some (d2.dropWhile Char.isWhitespace) = _
    rw [dropWhile_ws_of_head hd2head]
  have hacccolon : accept ":" ([] : List Char) = none := rfl
  simp only [parseClauses, bind, Except.bind, haccc, haccd, hacccolon, hrnum]
  simp

/-- **C7.**  Parsing `"b dc:d1,d2"` yields exactly
`[(b, chap, v1), (b, chap, v2)]`, and parsing `"b dc:d1-d2"` with
`v1 ≤ v2` yields exactly `(b, chap, v1) .. (b, chap, v2)` in increasing
order. -/
theorem C7_comma_list_and_range (bb : BibleBooks) (b : String)
    (dc d1 d2 : List Char) (chap v1 v2 : Nat)
    (hb : BookNameShape b) (hdc : DenotesNum dc chap)
    (hd1 : DenotesNum d1 v1) (hd2 : DenotesNum d2 v2)
    (s1 s2 : String)
    (hs1 : s1.data = b.data ++ (' ' :: (dc ++ (':' :: (d1 ++ (',' :: d2))))))
    (hs2 : s2.data = b.data ++ (' ' :: (dc ++ (':' :: (d1 ++ ('-' :: d2)))))) :
    parse_ref bb s1 = .ok [VerseRef.mk b chap v1, VerseRef.mk b chap v2] ∧
    (v1 ≤ v2 →
      parse_ref bb s2
        = .ok ((pyRange v1 (v2 + 1)).map (fun v => VerseRef.mk b chap v))) := by
  obtain ⟨c, cs, hdata, halpha, halnum⟩ := hb
  have hb2 : BookNameShape b := ⟨c, cs, hdata, halpha, halnum⟩
  constructor
  · have hdw : s1.data.dropWhile Char.isWhitespace
        = b.data ++ (' ' :: (dc ++ (':' :: (d1 ++ (',' :: d2))))) := by
      rw [hs1, hdata, List.cons_append, List.dropWhile_cons]
      simp [alpha_not_ws halpha]
    obtain ⟨g, hF⟩ : ∃ g, s1.data.length = g + 1 + 1 := by
      refine ⟨s1.data.length - 2, ?_⟩
      rw [hs1, hdata]
      simp [List.length_append]
      omega
    rw [parse_ref, hdw, hF,
      parseGroups_single_group bb b dc d1 (',' :: d2) chap v1 (g + 1 + 1) hb2 hdc hd1
        (by intro x rs hx
            have hxc : x = ',' := (List.cons.injEq _ _ _ _ ▸ hx).1.symm
            subst hxc
            exact ⟨by decide, by decide⟩),
      parseClauses_comma bb b chap v1 v2 d2 g hd2]
    simp [parseGroups]
  · intro hv
    have hdw : s2.data.dropWhile Char.isWhitespace
        = b.data ++ (' ' :: (dc ++ (':' :: (d1 ++ ('-' :: d2))))) := by
      rw [hs2, hdata, List.cons_append, List.dropWhile_cons]
      simp [alpha_not_ws halpha]
    obtain ⟨g, hF⟩ : ∃ g, s2.data.length = g + 1 + 1 := by
      refine ⟨s2.data.length - 2, ?_⟩
      rw [hs2, hdata]
      simp [List.length_append]
      omega
    rw [parse_ref, hdw, hF,
      parseGroups_single_group bb b dc d1 ('-' :: d2) chap v1 (g + 1 + 1) hb2 hdc hd1
        (by intro x rs hx
            have hxc : x = '-' := (List.cons.injEq _ _ _ _ ▸ hx).1.symm
            subst hxc
            exact ⟨by decide, by decide⟩),
      parseClauses_range bb b chap v1 v2 d2 g hd2]
    have hr : pyRange v1 (v2 + 1) = v1 :: pyRange (v1 + 1) (v2 + 1) := by
      unfold pyRange
      have h1 : v2 + 1 - v1 = (v2 + 1 - (v1 + 1)) + 1 := by omega
      rw [h1]
      rfl
    rw [hr]
    simp [parseGroups]

/-- Witness for C7: the spec's own examples, `"Jhn 3:16,18"` and
`"Jhn 3:16-18"`. -/
theorem C7_comma_list_and_range_witness :
    parse_ref jhnBB "Jhn 3:16,18"
      = .ok [VerseRef.mk "Jhn" 3 16, VerseRef.mk "Jhn" 3 18] ∧
    parse_ref jhnBB "Jhn 3:16-18"
      = .ok [VerseRef.mk "Jhn" 3 16, VerseRef.mk "Jhn" 3 17, VerseRef.mk "Jhn" 3 18] :=
  ⟨(C7_comma_list_and_range jhnBB "Jhn" ['3'] ['1', '6'] ['1', '8'] 3 16 18
      ⟨'J', ['h', 'n'], by decide, by decide, by decide⟩
      ⟨by decide, by decide, by decide⟩ ⟨by decide, by decide, by decide⟩
      ⟨by decide, by decide, by decide⟩
      "Jhn 3:16,18" "Jhn 3:16-18" (by decide) (by decide)).1,
   (C7_comma_list_and_range jhnBB "Jhn" ['3'] ['1', '6'] ['1', '8'] 3 16 18
      ⟨'J', ['h', 'n'], by decide, by decide, by decide⟩
      ⟨by decide, by decide, by decide⟩ ⟨by decide, by decide, by decide⟩
      ⟨by decide, by decide, by decide⟩
      "Jhn 3:16,18" "Jhn 3:16-18" (by decide) (by decide)).2 (by decide)⟩
